import Mathlib

/-!
Shallow embedding of the two-card drag-and-hotspot page
(`src/app/page.tsx`): the layout engine (viewport inset, image fit,
hotspot scaling, centered placement, degraded fallback) and the
per-entity drag controller (pointer-down / pointer-move / pointer-up
with animation-frame-coalesced repaint).  Numeric screen-space values
are modelled as rationals; `Math.round` is modelled as
`jsRound q = ⌊q + 1/2⌋`, which is JavaScript round-half-up.
-/

namespace ElisaSite

/-- Screen-space point `{x, y}` (`type Pt`). -/
structure Pt where
  x : ℚ
  y : ℚ
deriving DecidableEq, Repr

/-- Width/height pair `{w, h}` (`type Size`). -/
structure Size where
  w : ℚ
  h : ℚ
deriving DecidableEq, Repr

/-- Top-left-anchored rectangle `{x, y, w, h}` (`type Rect`). -/
structure Rect where
  x : ℚ
  y : ℚ
  w : ℚ
  h : ℚ
deriving DecidableEq, Repr

/-- Intrinsic-pixel hotspot rectangle `{x1, y1, x2, y2}`. -/
structure IntrinsicRect where
  x1 : ℚ
  y1 : ℚ
  x2 : ℚ
  y2 : ℚ
deriving DecidableEq, Repr

/-- `HOTSPOT_LEFT_INTRINSIC` from the source. -/
def HOTSPOT_LEFT_INTRINSIC : IntrinsicRect := ⟨160, 453, 696, 542⟩

/-- `HOTSPOT_RIGHT_INTRINSIC` from the source. -/
def HOTSPOT_RIGHT_INTRINSIC : IntrinsicRect := ⟨2069, 9497, 13575, 10520⟩

/-- JavaScript `Math.round`: round half toward positive infinity. -/
def jsRound (q : ℚ) : ℤ := ⌊q + 1 / 2⌋

/-- The layout margin constant (`const margin = 24`). -/
def margin : ℚ := 24

/-- Result of the `fit` helper: rounded on-screen size plus scale factor. -/
structure FitResult where
  size : Size
  scale : ℚ
deriving DecidableEq, Repr

/-- The `fit` helper: `maxW = min(vw*0.45, vw)`, `maxH = min(vh*0.7, vh)`,
`s = min(maxW/w, maxH/h, 1)`, fitted size `(round(w*s), round(h*s))`.
Takes the already-inset viewport `vw, vh`. -/
def fit (vw vh : ℚ) (sz : Size) : FitResult :=
  let maxW := min (vw * (45 / 100)) vw
  let maxH := min (vh * (7 / 10)) vh
  let s := min (maxW / sz.w) (min (maxH / sz.h) 1)
  { size := { w := (jsRound (sz.w * s) : ℚ), h := (jsRound (sz.h * s) : ℚ) }
    scale := s }

/-- The inset-viewport-then-fit pipeline applied to one image, exactly as in
the source: `vw = max(innerWidth - margin*2, 300)`,
`vh = max(innerHeight - margin*2, 300)`, then `fit`. -/
def layoutFit (innerW innerH : ℚ) (sz : Size) : FitResult :=
  fit (max (innerW - margin * 2) 300) (max (innerH - margin * 2) 300) sz

/-- `scaleRect`: scales an intrinsic rectangle by scale factor `s`:
origin `(x1*s, y1*s)`, size `((x2-x1)*s, (y2-y1)*s)`. -/
def scaleRect (r : IntrinsicRect) (s : ℚ) : Rect :=
  { x := r.x1 * s
    y := r.y1 * s
    w := (r.x2 - r.x1) * s
    h := (r.y2 - r.y1) * s }

/-- Outcome of probing one image for metadata: either the `load` event fires
reporting `naturalWidth`/`naturalHeight` (natural numbers), or the `error`
event fires. -/
inductive ProbeResult where
  | ok (naturalWidth naturalHeight : ℕ)
  | err
deriving DecidableEq, Repr

/-- `loadMeta`: on load, resolves `{w: naturalWidth || 360, h: naturalHeight || 240}`
(JavaScript `||` replaces a zero dimension by the default); on error, rejects. -/
def loadMeta : ProbeResult → Option Size
  | .ok nw nh =>
      some { w := ((if nw = 0 then 360 else nw : ℕ) : ℚ)
             h := ((if nh = 0 then 240 else nh : ℕ) : ℚ) }
  | .err => none

/-- The layout state set by `TwoImageCardsAutoSizeWithHotspot`:
sizes, centers and hotspots for the left and right card plus the
`ready` flag.  `degraded` records that the `catch` fallback branch ran. -/
structure LayoutResult where
  sizes : Size × Size
  centers : Pt × Pt
  hotspots : Rect × Rect
  ready : Bool
  degraded : Bool
deriving DecidableEq, Repr

/-- The `catch` fallback layout: fixed size `360×240`, fixed hotspots
`{x:10, y:180, w:340, h:40}`, centers `(40,80)` and `(40+360+24, 80)`,
`ready = true`. -/
def fallbackLayout : LayoutResult :=
  let fallback : Size := ⟨360, 240⟩
  { sizes := (fallback, fallback)
    hotspots := (⟨10, 180, 340, 40⟩, ⟨10, 180, 340, 40⟩)
    centers := (⟨40, 80⟩, ⟨40 + fallback.w + 24, 80⟩)
    ready := true
    degraded := true }

/-- The whole layout computation of `TwoImageCardsAutoSizeWithHotspot`:
probe both images; on success inset the viewport, fit both images,
scale each hotspot by its own image's scale, and place the two cards
side by side centered with a gap of 24, clamped at the margin; if either
probe fails, use the fixed fallback layout. -/
def computeLayout (innerW innerH : ℚ) (probeLeft probeRight : ProbeResult) :
    LayoutResult :=
  match loadMeta probeLeft, loadMeta probeRight with
  | some metaLeft, some metaRight =>
      let fl := layoutFit innerW innerH metaLeft
      let fr := layoutFit innerW innerH metaRight
      let leftHotspot := scaleRect HOTSPOT_LEFT_INTRINSIC fl.scale
      let rightHotspot := scaleRect HOTSPOT_RIGHT_INTRINSIC fr.scale
      let gap : ℚ := 24
      let totalW := fl.size.w + gap + fr.size.w
      let y := max margin ((innerH - max fl.size.h fr.size.h) / 2)
      let startX := max margin ((innerW - totalW) / 2)
      { sizes := (fl.size, fr.size)
        hotspots := (leftHotspot, rightHotspot)
        centers := (⟨startX, y⟩, ⟨startX + fl.size.w + gap, y⟩)
        ready := true
        degraded := false }
  | _, _ => fallbackLayout

/-! ## Drag controller -/

/-- The per-card mutable state of `MovableCard`: authoritative position
`pos` (the `pos` ref), the `dragging` flag, the recorded `dragOffset`,
whether an animation frame is pending (`rafId != null`), and `visual`,
the position last written to the element's CSS transform (what
`getBoundingClientRect` reports as the card's top-left). -/
structure CardState where
  pos : Pt
  dragging : Bool
  dragOffset : Pt
  rafPending : Bool
  visual : Pt
deriving DecidableEq, Repr

/-- A freshly mounted card: position and painted transform both at
`initial`, not dragging, zero offset, no pending frame. -/
def initCard (initial : Pt) : CardState :=
  { pos := initial
    dragging := false
    dragOffset := ⟨0, 0⟩
    rafPending := false
    visual := initial }

/-- `scheduleRender`: if a frame is already pending, do nothing; otherwise
request one. -/
def scheduleRender (s : CardState) : CardState :=
  if s.rafPending then s else { s with rafPending := true }

/-- The animation-frame callback firing (display refresh tick): if a frame
is pending, clear the pending flag and write the current authoritative
position to the element's transform; otherwise nothing happens. -/
def rafTick (s : CardState) : CardState :=
  if s.rafPending then { s with rafPending := false, visual := s.pos } else s

/-- `onPointerMove`: ignored unless dragging; otherwise sets
`pos = (clientX - dragOffset.x, clientY - dragOffset.y)` and schedules a
coalesced repaint. -/
def onPointerMove (clientX clientY : ℚ) (s : CardState) : CardState :=
  if s.dragging then
    scheduleRender
      { s with pos := ⟨clientX - s.dragOffset.x, clientY - s.dragOffset.y⟩ }
  else s

/-- `stopDragging`: clears the dragging flag (and removes the session-scoped
listeners; listener membership is represented by the flag itself, since
`onPointerMove` is a no-op when `dragging` is false). -/
def stopDragging (s : CardState) : CardState :=
  { s with dragging := false }

/-- `onPointerDown` on the card: records
`dragOffset = (clientX - rect.left, clientY - rect.top)` where `rect` is
the element's bounding rectangle (its painted top-left, `visual`), sets
`dragging`, and attaches the session-scoped listeners. -/
def onPointerDown (clientX clientY : ℚ) (s : CardState) : CardState :=
  { s with
      dragOffset := ⟨clientX - s.visual.x, clientY - s.visual.y⟩
      dragging := true }

/-- Pointer/frame events delivered to one card. -/
inductive PEvent where
  | down (x y : ℚ)
  | move (x y : ℚ)
  | up
  | frame
deriving DecidableEq, Repr

/-- Whether an event is a pointer-down. -/
def isDown : PEvent → Bool
  | .down _ _ => true
  | _ => false

/-- One event step of the card's controller. -/
def step (s : CardState) : PEvent → CardState
  | .down x y => onPointerDown x y s
  | .move x y => onPointerMove x y s
  | .up => stopDragging s
  | .frame => rafTick s

/-- Run a sequence of events through the controller. -/
def run (s : CardState) (es : List PEvent) : CardState := es.foldl step s

/-- Where the pointer-down lands: on the hotspot anchor (whose handler
calls `stopPropagation`) or on the card surface. -/
inductive Target where
  | hotspot
  | card
deriving DecidableEq, Repr

/-- Dispatch of a pointer-down by event target: on the hotspot the anchor's
handler stops propagation, so the card's drag handler never runs and the
drag state is untouched; on the card surface `onPointerDown` runs. -/
def dispatchPointerDown (t : Target) (x y : ℚ) (s : CardState) : CardState :=
  match t with
  | .hotspot => s
  | .card => onPointerDown x y s

end ElisaSite

namespace ElisaSite

/-! ## Helper lemmas about the controller primitives -/

@[simp] theorem scheduleRender_pos (s : CardState) :
    (scheduleRender s).pos = s.pos := by
  unfold scheduleRender; split <;> rfl

@[simp] theorem scheduleRender_dragging (s : CardState) :
    (scheduleRender s).dragging = s.dragging := by
  unfold scheduleRender; split <;> rfl

@[simp] theorem scheduleRender_dragOffset (s : CardState) :
    (scheduleRender s).dragOffset = s.dragOffset := by
  unfold scheduleRender; split <;> rfl

@[simp] theorem scheduleRender_visual (s : CardState) :
    (scheduleRender s).visual = s.visual := by
  unfold scheduleRender; split <;> rfl

@[simp] theorem scheduleRender_rafPending (s : CardState) :
    (scheduleRender s).rafPending = true := by
  unfold scheduleRender
  split
  case isTrue h => exact h
  case isFalse h => rfl

@[simp] theorem rafTick_pos (s : CardState) : (rafTick s).pos = s.pos := by
  unfold rafTick; split <;> rfl

@[simp] theorem rafTick_dragging (s : CardState) :
    (rafTick s).dragging = s.dragging := by
  unfold rafTick; split <;> rfl

@[simp] theorem rafTick_dragOffset (s : CardState) :
    (rafTick s).dragOffset = s.dragOffset := by
  unfold rafTick; split <;> rfl

theorem onPointerMove_of_dragging (x y : ℚ) (s : CardState)
    (h : s.dragging = true) :
    onPointerMove x y s =
      scheduleRender { s with pos := ⟨x - s.dragOffset.x, y - s.dragOffset.y⟩ } := by
  unfold onPointerMove
  simp [h]

theorem onPointerMove_of_idle (x y : ℚ) (s : CardState)
    (h : s.dragging = false) : onPointerMove x y s = s := by
  unfold onPointerMove
  simp [h]

/-- Pointer-move events during an active session keep the session active and
never change the recorded drag offset. -/
theorem run_moves_keeps_session (t : CardState) (moves : List (ℚ × ℚ))
    (hd : t.dragging = true) :
    (run t (moves.map fun m => PEvent.move m.1 m.2)).dragging = true ∧
    (run t (moves.map fun m => PEvent.move m.1 m.2)).dragOffset = t.dragOffset := by
  induction moves generalizing t with
  | nil => exact ⟨hd, rfl⟩
  | cons m rest ih =>
      have hstep : step t (PEvent.move m.1 m.2) =
          scheduleRender { t with pos := ⟨m.1 - t.dragOffset.x, m.2 - t.dragOffset.y⟩ } := by
        simp [step, onPointerMove_of_dragging _ _ _ hd]
      have hd' : (step t (PEvent.move m.1 m.2)).dragging = true := by
        rw [hstep]; simp [hd]
      have hoff : (step t (PEvent.move m.1 m.2)).dragOffset = t.dragOffset := by
        rw [hstep]; simp
      have := ih (step t (PEvent.move m.1 m.2)) hd'
      simpa [run, hoff] using this

/-- Pointer-move events never clear a pending animation frame. -/
theorem run_moves_keeps_pending (t : CardState) (moves : List (ℚ × ℚ))
    (hp : t.rafPending = true) :
    (run t (moves.map fun m => PEvent.move m.1 m.2)).rafPending = true := by
  induction moves generalizing t with
  | nil => exact hp
  | cons m rest ih =>
      have hp' : (step t (PEvent.move m.1 m.2)).rafPending = true := by
        simp only [step]
        unfold onPointerMove
        split
        · simp
        · exact hp
      simpa [run] using ih (step t (PEvent.move m.1 m.2)) hp'

/-- With no pointer-down among the delivered events, an idle card stays idle
and its position never changes. -/
theorem run_no_down_keeps_idle (t : CardState) (es : List PEvent)
    (hd : t.dragging = false) (hes : ∀ e ∈ es, isDown e = false) :
    (run t es).pos = t.pos ∧ (run t es).dragging = false := by
  induction es generalizing t with
  | nil => exact ⟨rfl, hd⟩
  | cons e rest ih =>
      have hpos : (step t e).pos = t.pos ∧ (step t e).dragging = false := by
        cases e with
        | down x y => exact absurd (hes _ (List.mem_cons_self _ _)) (by simp [isDown])
        | move x y => rw [step, onPointerMove_of_idle _ _ _ hd]; exact ⟨rfl, hd⟩
        | up => exact ⟨rfl, rfl⟩
        | frame => constructor <;> simp [step, hd]
      have := ih (step t e) hpos.2 (fun e' he' => hes e' (List.mem_cons_of_mem _ he'))
      have hrun : run t (e :: rest) = run (step t e) rest := rfl
      rw [hrun, this.1, hpos.1]
      exact ⟨rfl, this.2⟩

end ElisaSite

namespace ElisaSite

/-! ## Claim theorems -/

/-- Claim C1: for every drag session starting with the card quiescent at
position `P0`, the offset recorded at pointer-down equals the pointer
position minus the card's current top-left; each pointer-move while the
session is active sets the position to the pointer position minus that
offset; and releasing after a net pointer delta `(Dx, Dy)` leaves the card
at `P0 + D`, however many intermediate move events occurred.  In
particular pointer-down at `(120,80)` on a card at `(100,60)` records
offset `(20,20)` and a subsequent move to `(200,150)` sets the position to
`(180,130)`. -/
theorem drag_session_net_delta (s : CardState) (P0 : Pt) (dx dy Dx Dy : ℚ)
    (moves : List (ℚ × ℚ)) (hvis : s.visual = s.pos) (hp : s.pos = P0) :
    (onPointerDown dx dy s).dragOffset = ⟨dx - P0.x, dy - P0.y⟩ ∧
    (∀ t : CardState, t.dragging = true → ∀ mx my : ℚ,
      (onPointerMove mx my t).pos = ⟨mx - t.dragOffset.x, my - t.dragOffset.y⟩) ∧
    (stopDragging (onPointerMove (dx + Dx) (dy + Dy)
        (run (onPointerDown dx dy s) (moves.map fun m => PEvent.move m.1 m.2)))).pos
      = ⟨P0.x + Dx, P0.y + Dy⟩ ∧
    (onPointerDown 120 80 (initCard ⟨100, 60⟩)).dragOffset = ⟨20, 20⟩ ∧
    (onPointerMove 200 150 (onPointerDown 120 80 (initCard ⟨100, 60⟩))).pos
      = ⟨180, 130⟩ := by
  have hoff0 : (onPointerDown dx dy s).dragOffset = ⟨dx - P0.x, dy - P0.y⟩ := by
    simp [onPointerDown, hvis, hp]
  have hmv : ∀ t : CardState, t.dragging = true → ∀ mx my : ℚ,
      (onPointerMove mx my t).pos = ⟨mx - t.dragOffset.x, my - t.dragOffset.y⟩ := by
    intro t ht mx my
    rw [onPointerMove_of_dragging _ _ _ ht]
    simp
  refine ⟨hoff0, hmv, ?_, by norm_num [onPointerDown, initCard, Pt.mk.injEq],
    by norm_num [onPointerMove, onPointerDown, initCard, scheduleRender, Pt.mk.injEq]⟩
  obtain ⟨hdrag, hoffrun⟩ := run_moves_keeps_session (onPointerDown dx dy s) moves rfl
  have hsd : ∀ u : CardState, (stopDragging u).pos = u.pos := fun u => rfl
  rw [hsd, hmv _ hdrag, hoffrun, hoff0]
  simp [Pt.mk.injEq]
  constructor <;> ring

/-- Witness for C1: a concrete session from `(5,7)` with pointer-down at
`(10,11)`, two intermediate moves, and release at net delta `(3,4)`. -/
theorem drag_session_net_delta_witness :
    (initCard ⟨5, 7⟩).visual = (initCard ⟨5, 7⟩).pos ∧
    (initCard ⟨5, 7⟩).pos = ⟨5, 7⟩ ∧
    ((onPointerDown 10 11 (initCard ⟨5, 7⟩)).dragOffset = ⟨10 - (5 : ℚ), 11 - (7 : ℚ)⟩ ∧
     (∀ t : CardState, t.dragging = true → ∀ mx my : ℚ,
       (onPointerMove mx my t).pos = ⟨mx - t.dragOffset.x, my - t.dragOffset.y⟩) ∧
     (stopDragging (onPointerMove (10 + 3) (11 + 4)
         (run (onPointerDown 10 11 (initCard ⟨5, 7⟩))
           ([((30 : ℚ), (40 : ℚ)), (6, 8)].map fun m => PEvent.move m.1 m.2)))).pos
       = ⟨(5 : ℚ) + 3, (7 : ℚ) + 4⟩ ∧
     (onPointerDown 120 80 (initCard ⟨100, 60⟩)).dragOffset = ⟨20, 20⟩ ∧
     (onPointerMove 200 150 (onPointerDown 120 80 (initCard ⟨100, 60⟩))).pos
       = ⟨180, 130⟩) :=
  ⟨rfl, rfl, drag_session_net_delta (initCard ⟨5, 7⟩) ⟨5, 7⟩ 10 11 3 4
    [(30, 40), (6, 8)] rfl rfl⟩

/-- Rounding and scale bounds for the `fit` computation on an already-inset
viewport: the scale factor is in `(0, 1]`, the rounded fitted size never
exceeds the intrinsic (natural-number) size, and each fitted dimension is
within rounding distance of the uniformly scaled dimension. -/
theorem fit_bounds_core (vw vh : ℚ) (w h : ℕ) (hvw : 0 < vw) (hvh : 0 < vh)
    (hw : 0 < w) (hh : 0 < h) :
    0 < (fit vw vh ⟨(w : ℚ), (h : ℚ)⟩).scale ∧
    (fit vw vh ⟨(w : ℚ), (h : ℚ)⟩).scale ≤ 1 ∧
    (fit vw vh ⟨(w : ℚ), (h : ℚ)⟩).size.w ≤ (w : ℚ) ∧
    (fit vw vh ⟨(w : ℚ), (h : ℚ)⟩).size.h ≤ (h : ℚ) ∧
    |(fit vw vh ⟨(w : ℚ), (h : ℚ)⟩).size.w / (w : ℚ)
       - (fit vw vh ⟨(w : ℚ), (h : ℚ)⟩).scale| ≤ 1 / (2 * (w : ℚ)) ∧
    |(fit vw vh ⟨(w : ℚ), (h : ℚ)⟩).size.h / (h : ℚ)
       - (fit vw vh ⟨(w : ℚ), (h : ℚ)⟩).scale| ≤ 1 / (2 * (h : ℚ)) := by
  have hw' : (0 : ℚ) < w := by exact_mod_cast hw
  have hh' : (0 : ℚ) < h := by exact_mod_cast hh
  have hscale : (fit vw vh ⟨(w : ℚ), (h : ℚ)⟩).scale
      = min ((min (vw * (45 / 100)) vw) / (w : ℚ))
          (min ((min (vh * (7 / 10)) vh) / (h : ℚ)) 1) := rfl
  have hsw : (fit vw vh ⟨(w : ℚ), (h : ℚ)⟩).size.w
      = ((jsRound ((w : ℚ) * (fit vw vh ⟨(w : ℚ), (h : ℚ)⟩).scale)) : ℚ) := rfl
  have hsh : (fit vw vh ⟨(w : ℚ), (h : ℚ)⟩).size.h
      = ((jsRound ((h : ℚ) * (fit vw vh ⟨(w : ℚ), (h : ℚ)⟩).scale)) : ℚ) := rfl
  set s := (fit vw vh ⟨(w : ℚ), (h : ℚ)⟩).scale with hsdef
  have hmaxW : 0 < min (vw * (45 / 100)) vw := lt_min (mul_pos hvw (by norm_num)) hvw
  have hmaxH : 0 < min (vh * (7 / 10)) vh := lt_min (mul_pos hvh (by norm_num)) hvh
  have hspos : 0 < s := by
    rw [hscale]
    exact lt_min (div_pos hmaxW hw') (lt_min (div_pos hmaxH hh') one_pos)
  have hsle : s ≤ 1 := by
    rw [hscale]
    exact le_trans (min_le_right _ _) (min_le_right _ _)
  have key : ∀ n : ℕ, 0 < n →
      ((jsRound ((n : ℚ) * s) : ℚ) ≤ (n : ℚ) ∧
       |(jsRound ((n : ℚ) * s) : ℚ) / (n : ℚ) - s| ≤ 1 / (2 * (n : ℚ))) := by
    intro n hn
    have hn' : (0 : ℚ) < n := by exact_mod_cast hn
    have hle : (n : ℚ) * s ≤ n := mul_le_of_le_one_right hn'.le hsle
    have hfl : ((⌊(n : ℚ) * s + 1 / 2⌋ : ℤ) : ℚ) ≤ (n : ℚ) * s + 1 / 2 :=
      Int.floor_le _
    have hfg : (n : ℚ) * s + 1 / 2 - 1 < ((⌊(n : ℚ) * s + 1 / 2⌋ : ℤ) : ℚ) :=
      Int.sub_one_lt_floor _
    have h1 : ((jsRound ((n : ℚ) * s) : ℤ) : ℚ) ≤ (n : ℚ) := by
      have hlt : (n : ℚ) * s + 1 / 2 < (((n : ℤ) + 1 : ℤ) : ℚ) := by
        push_cast
        linarith
      have h2 : ⌊(n : ℚ) * s + 1 / 2⌋ < (n : ℤ) + 1 := Int.floor_lt.mpr hlt
      have h3 : jsRound ((n : ℚ) * s) ≤ (n : ℤ) := by
        unfold jsRound
        omega
      exact_mod_cast h3
    refine ⟨h1, ?_⟩
    have habs : |((jsRound ((n : ℚ) * s) : ℤ) : ℚ) - (n : ℚ) * s| ≤ 1 / 2 := by
      unfold jsRound
      rw [abs_le]
      constructor <;> linarith
    have heq : ((jsRound ((n : ℚ) * s) : ℤ) : ℚ) / (n : ℚ) - s
        = (((jsRound ((n : ℚ) * s) : ℤ) : ℚ) - (n : ℚ) * s) / (n : ℚ) := by
      field_simp
    rw [heq, abs_div, abs_of_pos hn']
    have hdiv : |((jsRound ((n : ℚ) * s) : ℤ) : ℚ) - (n : ℚ) * s| / (n : ℚ)
        ≤ (1 / 2) / (n : ℚ) := by
      gcongr
    have hfin : (1 / 2 : ℚ) / (n : ℚ) = 1 / (2 * (n : ℚ)) := by
      ring
    rw [hfin] at hdiv
    exact hdiv
  obtain ⟨kw1, kw2⟩ := key w hw
  obtain ⟨kh1, kh2⟩ := key h hh
  rw [hsw, hsh]
  exact ⟨hspos, hsle, kw1, kh1, kw2, kh2⟩

/-- Claim C2, amended: for every intrinsic image size `(w,h)` with `w > 0`
and `h > 0` and every viewport size, the fit computation yields a scale
factor `s = min(maxW/w, maxH/h, 1)` in `(0, 1]`, and the fitted size
satisfies `fittedW ≤ w` and `fittedH ≤ h`; each fitted dimension is the
rounding of the uniformly scaled one, so `fittedW/w` and `fittedH/h` each
differ from `s` by at most `1/(2w)` resp. `1/(2h)` (exact equality of the
two ratios can fail by rounding, see the counterexample). -/
theorem fit_scale_and_size_bounds (innerW innerH : ℚ) (w h : ℕ)
    (hw : 0 < w) (hh : 0 < h) :
    0 < (layoutFit innerW innerH ⟨(w : ℚ), (h : ℚ)⟩).scale ∧
    (layoutFit innerW innerH ⟨(w : ℚ), (h : ℚ)⟩).scale ≤ 1 ∧
    (layoutFit innerW innerH ⟨(w : ℚ), (h : ℚ)⟩).size.w ≤ (w : ℚ) ∧
    (layoutFit innerW innerH ⟨(w : ℚ), (h : ℚ)⟩).size.h ≤ (h : ℚ) ∧
    |(layoutFit innerW innerH ⟨(w : ℚ), (h : ℚ)⟩).size.w / (w : ℚ)
       - (layoutFit innerW innerH ⟨(w : ℚ), (h : ℚ)⟩).scale| ≤ 1 / (2 * (w : ℚ)) ∧
    |(layoutFit innerW innerH ⟨(w : ℚ), (h : ℚ)⟩).size.h / (h : ℚ)
       - (layoutFit innerW innerH ⟨(w : ℚ), (h : ℚ)⟩).scale| ≤ 1 / (2 * (h : ℚ)) := by
  have h300 : (0 : ℚ) < 300 := by norm_num
  have hvw : (0 : ℚ) < max (innerW - margin * 2) 300 :=
    lt_of_lt_of_le h300 (le_max_right _ _)
  have hvh : (0 : ℚ) < max (innerH - margin * 2) 300 :=
    lt_of_lt_of_le h300 (le_max_right _ _)
  have hL : layoutFit innerW innerH ⟨(w : ℚ), (h : ℚ)⟩
      = fit (max (innerW - margin * 2) 300) (max (innerH - margin * 2) 300)
          ⟨(w : ℚ), (h : ℚ)⟩ := rfl
  rw [hL]
  exact fit_bounds_core _ _ w h hvw hvh hw hh

/-- Witness for C2 amended: the `1000×500` image in a `1200×800` viewport. -/
theorem fit_scale_and_size_bounds_witness :
    0 < (1000 : ℕ) ∧ 0 < (500 : ℕ) ∧
    (0 < (layoutFit 1200 800 ⟨((1000 : ℕ) : ℚ), ((500 : ℕ) : ℚ)⟩).scale ∧
     (layoutFit 1200 800 ⟨((1000 : ℕ) : ℚ), ((500 : ℕ) : ℚ)⟩).scale ≤ 1 ∧
     (layoutFit 1200 800 ⟨((1000 : ℕ) : ℚ), ((500 : ℕ) : ℚ)⟩).size.w ≤ ((1000 : ℕ) : ℚ) ∧
     (layoutFit 1200 800 ⟨((1000 : ℕ) : ℚ), ((500 : ℕ) : ℚ)⟩).size.h ≤ ((500 : ℕ) : ℚ) ∧
     |(layoutFit 1200 800 ⟨((1000 : ℕ) : ℚ), ((500 : ℕ) : ℚ)⟩).size.w / ((1000 : ℕ) : ℚ)
        - (layoutFit 1200 800 ⟨((1000 : ℕ) : ℚ), ((500 : ℕ) : ℚ)⟩).scale|
       ≤ 1 / (2 * ((1000 : ℕ) : ℚ)) ∧
     |(layoutFit 1200 800 ⟨((1000 : ℕ) : ℚ), ((500 : ℕ) : ℚ)⟩).size.h / ((500 : ℕ) : ℚ)
        - (layoutFit 1200 800 ⟨((1000 : ℕ) : ℚ), ((500 : ℕ) : ℚ)⟩).scale|
       ≤ 1 / (2 * ((500 : ℕ) : ℚ))) :=
  ⟨by norm_num, by norm_num,
   fit_scale_and_size_bounds 1200 800 1000 500 (by norm_num) (by norm_num)⟩

/-- Counterexample for C2 as stated: the intrinsic size `270×271` in a
`348×2000` viewport fits with scale `1/2`, but the rounded fitted size is
`135×136` and `135/270 ≠ 136/271` — the exact ratio equality
`fittedW/w = fittedH/h` fails because the two axes are rounded
independently. -/
theorem fit_exact_ratio_counterexample :
    0 < (270 : ℕ) ∧ 0 < (271 : ℕ) ∧
    ¬ ((layoutFit 348 2000 ⟨((270 : ℕ) : ℚ), ((271 : ℕ) : ℚ)⟩).size.w / ((270 : ℕ) : ℚ)
        = (layoutFit 348 2000 ⟨((270 : ℕ) : ℚ), ((271 : ℕ) : ℚ)⟩).size.h
            / ((271 : ℕ) : ℚ)) := by
  refine ⟨by norm_num, by norm_num, ?_⟩
  have hsize : (layoutFit 348 2000 ⟨((270 : ℕ) : ℚ), ((271 : ℕ) : ℚ)⟩).size
      = ⟨135, 136⟩ := by
    norm_num [layoutFit, fit, margin, jsRound, Size.mk.injEq]
  rw [hsize]
  norm_num

end ElisaSite

namespace ElisaSite

/-- Claim C3: for intrinsic size `1000×500` and viewport `1200×800` with
margin 24, the layout computes `vw = 1152`, `vh = 752`, `maxW = 518.4`,
`maxH = 526.4`, scale factor `s = 0.5184`, and fitted size `518×259`. -/
theorem layout_scenario_values :
    max (1200 - margin * 2) 300 = (1152 : ℚ) ∧
    max (800 - margin * 2) 300 = (752 : ℚ) ∧
    min ((1152 : ℚ) * (45 / 100)) 1152 = 518.4 ∧
    min ((752 : ℚ) * (7 / 10)) 752 = 526.4 ∧
    (layoutFit 1200 800 ⟨1000, 500⟩).scale = 0.5184 ∧
    (layoutFit 1200 800 ⟨1000, 500⟩).size = ⟨518, 259⟩ := by
  refine ⟨by norm_num [margin], by norm_num [margin], by norm_num, by norm_num, ?_, ?_⟩
  · norm_num [layoutFit, fit, margin]
  · norm_num [layoutFit, fit, margin, jsRound, Size.mk.injEq]

/-- Claim C4: for every intrinsic hotspot rectangle and scale factor `s`,
the scaled rectangle has origin `(x1*s, y1*s)` and size
`((x2-x1)*s, (y2-y1)*s)`, its area is the intrinsic area times `s²`, and
the layout scales each card's hotspot with the same scale factor `s` as
its owning image. -/
theorem hotspot_scaling (r : IntrinsicRect) (s : ℚ) (iw ih : ℚ)
    (pl pr : ProbeResult) (mL mR : Size)
    (hL : loadMeta pl = some mL) (hR : loadMeta pr = some mR) :
    (scaleRect r s).x = r.x1 * s ∧
    (scaleRect r s).y = r.y1 * s ∧
    (scaleRect r s).w = (r.x2 - r.x1) * s ∧
    (scaleRect r s).h = (r.y2 - r.y1) * s ∧
    (scaleRect r s).w * (scaleRect r s).h
      = ((r.x2 - r.x1) * (r.y2 - r.y1)) * s ^ 2 ∧
    (computeLayout iw ih pl pr).hotspots
      = (scaleRect HOTSPOT_LEFT_INTRINSIC (layoutFit iw ih mL).scale,
         scaleRect HOTSPOT_RIGHT_INTRINSIC (layoutFit iw ih mR).scale) := by
  refine ⟨rfl, rfl, rfl, rfl, by simp [scaleRect]; ring, ?_⟩
  simp [computeLayout, hL, hR]

/-- Witness for C4 at `s = 1/2` and two successfully probed images. -/
theorem hotspot_scaling_witness :
    loadMeta (.ok 1000 500) = some ⟨1000, 500⟩ ∧
    loadMeta (.ok 800 600) = some ⟨800, 600⟩ ∧
    ((scaleRect HOTSPOT_LEFT_INTRINSIC (1 / 2)).x = HOTSPOT_LEFT_INTRINSIC.x1 * (1 / 2) ∧
     (scaleRect HOTSPOT_LEFT_INTRINSIC (1 / 2)).y = HOTSPOT_LEFT_INTRINSIC.y1 * (1 / 2) ∧
     (scaleRect HOTSPOT_LEFT_INTRINSIC (1 / 2)).w
       = (HOTSPOT_LEFT_INTRINSIC.x2 - HOTSPOT_LEFT_INTRINSIC.x1) * (1 / 2) ∧
     (scaleRect HOTSPOT_LEFT_INTRINSIC (1 / 2)).h
       = (HOTSPOT_LEFT_INTRINSIC.y2 - HOTSPOT_LEFT_INTRINSIC.y1) * (1 / 2) ∧
     (scaleRect HOTSPOT_LEFT_INTRINSIC (1 / 2)).w * (scaleRect HOTSPOT_LEFT_INTRINSIC (1 / 2)).h
       = ((HOTSPOT_LEFT_INTRINSIC.x2 - HOTSPOT_LEFT_INTRINSIC.x1)
           * (HOTSPOT_LEFT_INTRINSIC.y2 - HOTSPOT_LEFT_INTRINSIC.y1)) * (1 / 2) ^ 2 ∧
     (computeLayout 1200 800 (.ok 1000 500) (.ok 800 600)).hotspots
       = (scaleRect HOTSPOT_LEFT_INTRINSIC (layoutFit 1200 800 ⟨1000, 500⟩).scale,
          scaleRect HOTSPOT_RIGHT_INTRINSIC (layoutFit 1200 800 ⟨800, 600⟩).scale)) := by
  have h1 : loadMeta (.ok 1000 500) = some ⟨1000, 500⟩ := by
    simp [loadMeta]
  have h2 : loadMeta (.ok 800 600) = some ⟨800, 600⟩ := by
    simp [loadMeta]
  exact ⟨h1, h2, hotspot_scaling HOTSPOT_LEFT_INTRINSIC (1 / 2) 1200 800 _ _ _ _ h1 h2⟩

/-- Claim C5: repaint requests are coalesced — a request while one is
pending is a no-op, a display-refresh tick consumes the pending request,
clears the pending flag and applies the card's authoritative position at
the time the tick runs (so after any further moves the tick paints the
latest position, never a stale intermediate one). -/
theorem repaint_coalescing (s : CardState) (moves : List (ℚ × ℚ)) :
    (s.rafPending = true → scheduleRender s = s) ∧
    (scheduleRender s).rafPending = true ∧
    (s.rafPending = true → rafTick s = { s with rafPending := false, visual := s.pos }) ∧
    (s.rafPending = false → rafTick s = s) ∧
    (rafTick (run (scheduleRender s) (moves.map fun m => PEvent.move m.1 m.2))).visual
      = (run (scheduleRender s) (moves.map fun m => PEvent.move m.1 m.2)).pos ∧
    (rafTick (run (scheduleRender s) (moves.map fun m => PEvent.move m.1 m.2))).rafPending
      = false := by
  have hpend := run_moves_keeps_pending (scheduleRender s) moves (scheduleRender_rafPending s)
  refine ⟨?_, scheduleRender_rafPending s, ?_, ?_, ?_, ?_⟩
  · intro h; unfold scheduleRender; simp [h]
  · intro h; unfold rafTick; simp [h]
  · intro h; unfold rafTick; simp [h]
  · unfold rafTick; simp [hpend]
  · unfold rafTick; simp [hpend]

/-- Witness for C5 at a concrete state with a pending frame. -/
theorem repaint_coalescing_witness :
    ((⟨⟨1, 2⟩, true, ⟨3, 4⟩, true, ⟨0, 0⟩⟩ : CardState).rafPending = true) ∧
    scheduleRender ⟨⟨1, 2⟩, true, ⟨3, 4⟩, true, ⟨0, 0⟩⟩
      = (⟨⟨1, 2⟩, true, ⟨3, 4⟩, true, ⟨0, 0⟩⟩ : CardState) ∧
    rafTick ⟨⟨1, 2⟩, true, ⟨3, 4⟩, true, ⟨0, 0⟩⟩
      = { (⟨⟨1, 2⟩, true, ⟨3, 4⟩, true, ⟨0, 0⟩⟩ : CardState) with
          rafPending := false,
          visual := (⟨⟨1, 2⟩, true, ⟨3, 4⟩, true, ⟨0, 0⟩⟩ : CardState).pos } ∧
    (rafTick (run (scheduleRender ⟨⟨1, 2⟩, true, ⟨3, 4⟩, true, ⟨0, 0⟩⟩)
        ([((9 : ℚ), (9 : ℚ))].map fun m => PEvent.move m.1 m.2))).visual
      = (run (scheduleRender ⟨⟨1, 2⟩, true, ⟨3, 4⟩, true, ⟨0, 0⟩⟩)
        ([((9 : ℚ), (9 : ℚ))].map fun m => PEvent.move m.1 m.2)).pos :=
  ⟨rfl,
   (repaint_coalescing ⟨⟨1, 2⟩, true, ⟨3, 4⟩, true, ⟨0, 0⟩⟩ [(9, 9)]).1 rfl,
   (repaint_coalescing ⟨⟨1, 2⟩, true, ⟨3, 4⟩, true, ⟨0, 0⟩⟩ [(9, 9)]).2.2.1 rfl,
   (repaint_coalescing ⟨⟨1, 2⟩, true, ⟨3, 4⟩, true, ⟨0, 0⟩⟩ [(9, 9)]).2.2.2.2.1⟩

/-- Claim C6: a pointer-down whose target is the hotspot never reaches the
card's drag handler (propagation stops), so no drag session begins and the
card's stored position is unchanged by the entire hotspot interaction,
whatever pointer moves follow; whether a pointer-down starts a drag is
decided solely by the event target. -/
theorem hotspot_click_never_drags (s : CardState) (x y : ℚ) (es : List PEvent)
    (hidle : s.dragging = false) (hes : ∀ e ∈ es, isDown e = false) :
    dispatchPointerDown .hotspot x y s = s ∧
    (run (dispatchPointerDown .hotspot x y s) es).pos = s.pos ∧
    (run (dispatchPointerDown .hotspot x y s) es).dragging = false ∧
    (dispatchPointerDown .card x y s).dragging = true := by
  have hrun := run_no_down_keeps_idle s es hidle hes
  exact ⟨rfl, hrun.1, hrun.2, rfl⟩

/-- Witness for C6: a hotspot click with a pointer move, a frame tick and a
pointer-up during the click. -/
theorem hotspot_click_never_drags_witness :
    (initCard ⟨1, 2⟩).dragging = false ∧
    (∀ e ∈ [PEvent.move 9 9, PEvent.frame, PEvent.up], isDown e = false) ∧
    (dispatchPointerDown .hotspot 3 4 (initCard ⟨1, 2⟩) = initCard ⟨1, 2⟩ ∧
     (run (dispatchPointerDown .hotspot 3 4 (initCard ⟨1, 2⟩))
        [PEvent.move 9 9, PEvent.frame, PEvent.up]).pos = (initCard ⟨1, 2⟩).pos ∧
     (run (dispatchPointerDown .hotspot 3 4 (initCard ⟨1, 2⟩))
        [PEvent.move 9 9, PEvent.frame, PEvent.up]).dragging = false ∧
     (dispatchPointerDown .card 3 4 (initCard ⟨1, 2⟩)).dragging = true) := by
  have hes : ∀ e ∈ [PEvent.move 9 9, PEvent.frame, PEvent.up], isDown e = false := by
    intro e he
    fin_cases he <;> rfl
  exact ⟨rfl, hes, hotspot_click_never_drags (initCard ⟨1, 2⟩) 3 4
    [PEvent.move 9 9, PEvent.frame, PEvent.up] rfl hes⟩

/-- Counterexample for C7 as stated: `onPointerDown` has no guard on the
`dragging` flag, so a second pointer-down at `(50,50)` while already
dragging with recorded offset `(10,10)` is not ignored — it changes the
session state (the recorded offset becomes `(50,50)`). -/
theorem second_pointer_down_not_ignored :
    ((⟨⟨0, 0⟩, true, ⟨10, 10⟩, false, ⟨0, 0⟩⟩ : CardState).dragging = true) ∧
    onPointerDown 50 50 ⟨⟨0, 0⟩, true, ⟨10, 10⟩, false, ⟨0, 0⟩⟩ ≠
      (⟨⟨0, 0⟩, true, ⟨10, 10⟩, false, ⟨0, 0⟩⟩ : CardState) := by
  refine ⟨rfl, ?_⟩
  simp [onPointerDown, CardState.mk.injEq, Pt.mk.injEq]

/-- Claim C7, amended: a second pointer-down while already dragging does not
start a nested session — the card stays in the single dragging state and
its position is untouched — but it is not a complete no-op: it re-records
the drag offset relative to the new pointer position and the card's
painted top-left. -/
theorem second_pointer_down_rerecords (s : CardState) (x y : ℚ)
    (_h : s.dragging = true) :
    (onPointerDown x y s).dragging = true ∧
    (onPointerDown x y s).pos = s.pos ∧
    (onPointerDown x y s).rafPending = s.rafPending ∧
    (onPointerDown x y s).dragOffset = ⟨x - s.visual.x, y - s.visual.y⟩ := by
  simp [onPointerDown]

/-- Witness for C7 amended at the same concrete dragging state. -/
theorem second_pointer_down_rerecords_witness :
    ((⟨⟨0, 0⟩, true, ⟨10, 10⟩, false, ⟨0, 0⟩⟩ : CardState).dragging = true) ∧
    ((onPointerDown 50 50 ⟨⟨0, 0⟩, true, ⟨10, 10⟩, false, ⟨0, 0⟩⟩).dragging = true ∧
     (onPointerDown 50 50 ⟨⟨0, 0⟩, true, ⟨10, 10⟩, false, ⟨0, 0⟩⟩).pos
       = (⟨⟨0, 0⟩, true, ⟨10, 10⟩, false, ⟨0, 0⟩⟩ : CardState).pos ∧
     (onPointerDown 50 50 ⟨⟨0, 0⟩, true, ⟨10, 10⟩, false, ⟨0, 0⟩⟩).rafPending
       = (⟨⟨0, 0⟩, true, ⟨10, 10⟩, false, ⟨0, 0⟩⟩ : CardState).rafPending ∧
     (onPointerDown 50 50 ⟨⟨0, 0⟩, true, ⟨10, 10⟩, false, ⟨0, 0⟩⟩).dragOffset
       = ⟨50 - (⟨⟨0, 0⟩, true, ⟨10, 10⟩, false, ⟨0, 0⟩⟩ : CardState).visual.x,
          50 - (⟨⟨0, 0⟩, true, ⟨10, 10⟩, false, ⟨0, 0⟩⟩ : CardState).visual.y⟩) :=
  ⟨rfl, second_pointer_down_rerecords _ 50 50 rfl⟩

/-- Claim C8: when the metadata probe fails for both images, the layout is
the fixed fallback — both cards sized `360×240` at positions `(40,80)` and
`(424,80)` with the fixed fallback hotspot — the page still becomes ready,
and a card seeded from that layout is still draggable and its hotspot
still swallows pointer-downs. -/
theorem metadata_failure_fallback (iw ih : ℚ) (pl pr : ProbeResult)
    (h : pl = ProbeResult.err ∧ pr = ProbeResult.err) :
    computeLayout iw ih pl pr = fallbackLayout ∧
    fallbackLayout.sizes = (⟨360, 240⟩, ⟨360, 240⟩) ∧
    fallbackLayout.centers = (⟨40, 80⟩, ⟨424, 80⟩) ∧
    fallbackLayout.hotspots = (⟨10, 180, 340, 40⟩, ⟨10, 180, 340, 40⟩) ∧
    fallbackLayout.ready = true ∧
    (∀ dx dy mx my : ℚ,
      (onPointerMove mx my (onPointerDown dx dy
          (initCard (computeLayout iw ih pl pr).centers.1))).pos
        = ⟨mx - dx + 40, my - dy + 80⟩) ∧
    (∀ x y : ℚ,
      dispatchPointerDown .hotspot x y (initCard (computeLayout iw ih pl pr).centers.1)
        = initCard (computeLayout iw ih pl pr).centers.1) := by
  obtain ⟨h1, h2⟩ := h
  subst h1; subst h2
  have hc : computeLayout iw ih .err .err = fallbackLayout := rfl
  refine ⟨hc, by norm_num [fallbackLayout], by norm_num [fallbackLayout],
    by norm_num [fallbackLayout], rfl, ?_, fun x y => rfl⟩
  intro dx dy mx my
  rw [hc]
  have hcen : fallbackLayout.centers.1 = ⟨40, 80⟩ := by norm_num [fallbackLayout]
  rw [hcen]
  simp [onPointerMove, onPointerDown, initCard, Pt.mk.injEq]
  constructor <;> ring

/-- Witness for C8 with both probes failing in a `1200×800` viewport. -/
theorem metadata_failure_fallback_witness :
    (ProbeResult.err = ProbeResult.err ∧ ProbeResult.err = ProbeResult.err) ∧
    (computeLayout 1200 800 .err .err = fallbackLayout ∧
     fallbackLayout.sizes = (⟨360, 240⟩, ⟨360, 240⟩) ∧
     fallbackLayout.centers = (⟨40, 80⟩, ⟨424, 80⟩) ∧
     fallbackLayout.hotspots = (⟨10, 180, 340, 40⟩, ⟨10, 180, 340, 40⟩) ∧
     fallbackLayout.ready = true ∧
     (∀ dx dy mx my : ℚ,
       (onPointerMove mx my (onPointerDown dx dy
           (initCard (computeLayout 1200 800 .err .err).centers.1))).pos
         = ⟨mx - dx + 40, my - dy + 80⟩) ∧
     (∀ x y : ℚ,
       dispatchPointerDown .hotspot x y
           (initCard (computeLayout 1200 800 .err .err).centers.1)
         = initCard (computeLayout 1200 800 .err .err).centers.1)) :=
  ⟨⟨rfl, rfl⟩, metadata_failure_fallback 1200 800 .err .err ⟨rfl, rfl⟩⟩

/-- Claim C9: a drag session with no pointer-move between pointer-down and
pointer-up leaves the position exactly as at session start — pointer-up
alone never changes the position, it only ends the session. -/
theorem pointer_up_without_move (s : CardState) (dx dy : ℚ) :
    (stopDragging (onPointerDown dx dy s)).pos = s.pos ∧
    (stopDragging (onPointerDown dx dy s)).dragging = false ∧
    (stopDragging s).pos = s.pos ∧
    (stopDragging s).dragging = false := by
  simp [stopDragging, onPointerDown]

/-- Claim C10: a successful probe reporting a zero `naturalWidth` or
`naturalHeight` does not enter the degraded fallback mode — the zero
dimension is replaced per-axis by the defaults 360 (width) and 240
(height) and the normal fit computation proceeds; the degraded fallback
runs only when a probe's error event fires. -/
theorem zero_natural_size_axis_defaults (iw ih : ℚ) (nw nh nw2 nh2 : ℕ) :
    (computeLayout iw ih (.ok nw nh) (.ok nw2 nh2)).degraded = false ∧
    (computeLayout iw ih (.ok nw nh) (.ok nw2 nh2)).ready = true ∧
    loadMeta (.ok 0 nh) = some ⟨360, ((if nh = 0 then 240 else nh : ℕ) : ℚ)⟩ ∧
    loadMeta (.ok nw 0) = some ⟨((if nw = 0 then 360 else nw : ℕ) : ℚ), 240⟩ ∧
    computeLayout iw ih (.ok 0 0) (.ok nw2 nh2)
      = computeLayout iw ih (.ok 360 240) (.ok nw2 nh2) ∧
    (computeLayout iw ih .err (.ok nw2 nh2)).degraded = true ∧
    (computeLayout iw ih (.ok nw nh) .err).degraded = true := by
  refine ⟨rfl, rfl, by simp [loadMeta], by simp [loadMeta], ?_, rfl, ?_⟩
  · norm_num [computeLayout, loadMeta]
  · cases nw <;> cases nh <;> rfl

end ElisaSite
